import Mathlib

/-
  Verification development for the PS-Challenge portfolio-rebalancing engine.

  Shallow embedding conventions:
  * Python floats (prices, percentages, money) are modelled as exact rationals (ℚ);
    Python ints as ℤ.  Theorems about code paths that would divide carry explicit
    positivity hypotheses (positive prices, positive total value) so that they only
    speak about inputs on which Python does not raise ZeroDivisionError.
  * Python dicts are association lists observed only through `pyLookup`;
    `pyDictSet` updates the first binding in place (or appends a new one, as Python
    dicts do) and `pyDictDel` removes the key.
  * Unguarded dict subscripts that can raise KeyError are modelled with
    `Except String`; guarded accesses use `Option`.
  * `int(x)` (truncation toward zero) is `pyInt`.
  * Reason/insight strings are kept as their constant textual skeletons; the
    numeric interpolation (Python `f"... {x:.1f} ..."`) is presentational and is
    omitted, as are wall-clock timestamps in log entries.
-/

namespace PSChallenge

/-- Python dict read: value of the first binding of a key, if any. -/
def pyLookup : List (String × α) → String → Option α
  | [], _ => none
  | (k, v) :: rest, key => if k = key then some v else pyLookup rest key

/-- Python dict write `d[k] = v`: replace the first binding in place, else append. -/
def pyDictSet : List (String × α) → String → α → List (String × α)
  | [], key, v => [(key, v)]
  | (k, w) :: rest, key, v =>
      if k = key then (k, v) :: rest else (k, w) :: pyDictSet rest key v

/-- Python `del d[k]`: remove every binding of the key. -/
def pyDictDel : List (String × α) → String → List (String × α)
  | [], _ => []
  | (k, v) :: rest, key =>
      if k = key then pyDictDel rest key else (k, v) :: pyDictDel rest key

/-- Python `int(x)` on a float: truncation toward zero. -/
def pyInt (q : ℚ) : ℤ := if 0 ≤ q then ⌊q⌋ else ⌈q⌉

/-- Market quote for one symbol, as built by `get_stock_data` (data_utils.py):
price, day change percent, dividend yield percent, and a possibly unknown
trailing P/E ratio. -/
structure Quote where
  price : ℚ
  change : ℚ
  dividend_yield : ℚ
  pe_ratio : Option ℚ
  deriving DecidableEq, Repr

/-- One entry of `analysis['sector_analysis']` (ai_services.py). -/
structure SectorInfo where
  performance : ℚ
  dividend_yield : ℚ
  sentiment : String
  deriving DecidableEq, Repr

/-- The market-analysis dict produced by `analyze_market_conditions`
(ai_services.py); always carries all five keys. -/
structure MarketAnalysis where
  market_sentiment : String
  key_insights : List String
  sector_analysis : List (String × SectorInfo)
  risk_assessment : String
  recommendation : String
  deriving DecidableEq, Repr

/-- A recommendation dict.  Producers fill different subsets of the optional
fields; the executor reads only symbol/shares/cost/action.  The formatted
`reasoning` sentence is presentational and omitted. -/
structure Rec where
  symbol : String
  shares : ℤ
  cost : ℚ
  action : String
  category : String := ""
  current_pct : ℚ := 0
  target_pct : ℚ := 0
  ai_score : ℚ := 0
  market_sentiment : String := ""
  detailed_reasons : List String := []
  priority : String := ""
  ai_generated : Bool := true
  deriving DecidableEq, Repr

/-- One execution-history entry (timestamp omitted: wall clock). -/
structure LogEntry where
  action : String
  amount : ℚ
  deriving DecidableEq, Repr

/-- The mutable session state touched by `execute_recommendations`
(portfolio_manager.py): holdings (symbol to share count; the per-holding
`symbol`/`name` strings are redundant decoration and omitted), cash, and the
execution history. -/
structure PortfolioState where
  portfolio : List (String × ℤ)
  cash_balance : ℚ
  execution_history : List LogEntry
  deriving DecidableEq, Repr

/-! ## config.py -/

/-- SECTORS (config.py). -/
def SECTORS : List (String × List String) :=
  [("US Large Cap", ["SPY", "VTI"]),
   ("US Small Cap", ["IWM"]),
   ("International", ["EFA", "VTIAX"]),
   ("Bonds", ["BND", "TLT"]),
   ("Real Estate", ["VNQ", "IYR"]),
   ("Tech", ["QQQ"])]

/-- DIVERSIFIED_ETF_MAP (config.py). -/
def DIVERSIFIED_ETF_MAP : List (String × List String) :=
  [("Stocks (US)", ["VTI", "SPY", "QQQ", "VUG", "VTV", "VYM", "SCHD", "DGRO"]),
   ("Stocks (Intl)", ["VTIAX", "EFA", "VEA", "VWO", "VXUS"]),
   ("Bonds", ["BND", "TLT", "AGG", "BNDX"]),
   ("Real Estate", ["VNQ", "IYR"])]

/-! ## data_utils.py -/

/-- `calculate_ai_score` (data_utils.py): heuristic score from momentum,
dividend yield and valuation, clamped to [20, 95]; 50 for an unknown symbol. -/
def calculate_ai_score (symbol : String) (stock_data : List (String × Quote)) : ℚ :=
  match pyLookup stock_data symbol with
  | none => 50
  | some data =>
      let score : ℚ := 50
      let score := if 0 < data.change
        then score + min (data.change * 2) 15
        else score + max (data.change * 2) (-15)
      let score := if 2 < data.dividend_yield then score + 10 else score
      let score := match data.pe_ratio with
        | some pe => if 10 ≤ pe ∧ pe ≤ 25 then score + 10 else score
        | none => score
      max 20 (min 95 score)

/-- Modelled from the spec (section 4.2) for comparison with the code:
`score = 50 + clamp(change_pct × 2, -15, 15) + (10 if dividend_yield_pct > 2)
+ (10 if pe_ratio known and 10 ≤ pe_ratio ≤ 25)`, clamped to [20, 95];
unknown symbol gives the fixed default 50. -/
def aiScoreSpec (symbol : String) (stock_data : List (String × Quote)) : ℚ :=
  match pyLookup stock_data symbol with
  | none => 50
  | some data =>
      let clampMom := max (-15) (min 15 (data.change * 2))
      let divBonus : ℚ := if 2 < data.dividend_yield then 10 else 0
      let peBonus : ℚ := match data.pe_ratio with
        | some pe => if 10 ≤ pe ∧ pe ≤ 25 then 10 else 0
        | none => 0
      max 20 (min 95 (50 + clampMom + divBonus + peBonus))

/-! ## ai_services.py: market analyzer -/

/-- `analyze_market_conditions` (ai_services.py).  The Python function ignores
its `stock_data` parameter and analyzes the quotes it fetches for
RESEARCH_SYMBOLS; that fetch is the external Quote Store, so the embedding
takes the fetched `research_data` as its input.  (On an empty quote set the
Python code returns the bare default dict instead of the `(analysis, data)`
pair; the embedding returns the analysis part, which is what both shapes
carry.) -/
def analyze_market_conditions (research_data : List (String × Quote)) : MarketAnalysis :=
  let base : MarketAnalysis :=
    { market_sentiment := "neutral"
      key_insights := []
      sector_analysis := []
      risk_assessment := "medium"
      recommendation := "proceed_with_caution" }
  if research_data.isEmpty then base
  else
    let positive_moves : ℚ := ((research_data.filter (fun p => 0 < p.2.change)).length : ℚ)
    let total_symbols : ℚ := (research_data.length : ℚ)
    let sentPair : String × String :=
      if positive_moves / total_symbols > 7/10 then
        ("bullish", "Strong positive momentum across major indices")
      else if positive_moves / total_symbols < 3/10 then
        ("bearish", "Widespread selling pressure in markets")
      else
        ("neutral", "Mixed signals with sector rotation")
    let sector_analysis := SECTORS.filterMap (fun sec =>
      let sector_data := sec.2.filterMap (fun s => pyLookup research_data s)
      if sector_data.isEmpty then none
      else
        let n : ℚ := (sector_data.length : ℚ)
        let avg_change := (sector_data.map (fun d => d.change)).sum / n
        let avg_dividend := (sector_data.map (fun d => d.dividend_yield)).sum / n
        some (sec.1,
          { performance := avg_change
            dividend_yield := avg_dividend
            sentiment := if avg_change > 1 then "strong"
              else if avg_change < -1 then "weak" else "neutral" }))
    let volatility := (research_data.map (fun p => |p.2.change|)).sum / total_symbols
    let riskPair : String × List String :=
      if volatility > 2 then
        ("high", ["High volatility detected - markets are unstable"])
      else if volatility < 1/2 then
        ("low", ["Low volatility - stable market conditions"])
      else ("medium", [])
    let recPair : String × String :=
      if sentPair.1 = "bullish" ∧ riskPair.1 = "low" then
        ("aggressive_buy", "Favorable conditions for aggressive investment")
      else if sentPair.1 = "bearish" ∨ riskPair.1 = "high" then
        ("defensive", "Consider defensive positioning with bonds")
      else ("balanced", "Balanced approach recommended")
    { market_sentiment := sentPair.1
      key_insights := [sentPair.2] ++ riskPair.2 ++ [recPair.2]
      sector_analysis := sector_analysis
      risk_assessment := riskPair.1
      recommendation := recPair.1 }

/-! ## ai_services.py: reasoning generator -/

/-- The category-to-sector selection at the top of `generate_detailed_reasoning`
(and repeated in the rebalancing engine): `sector_analysis.get(name, {})`, where
the empty-dict default is falsy, i.e. behaves as absence. -/
def categorySector (category : String) (ma : MarketAnalysis) : Option SectorInfo :=
  if category = "Stocks (US)" then pyLookup ma.sector_analysis "US Large Cap"
  else if category = "Stocks (Intl)" then pyLookup ma.sector_analysis "International"
  else if category = "Bonds" then pyLookup ma.sector_analysis "Bonds"
  else if category = "Real Estate" then pyLookup ma.sector_analysis "Real Estate"
  else none

/-- Body of `generate_detailed_reasoning` (ai_services.py) once the quote has
been read; each `reasons.append` chain of one ladder is one list segment.
Reason strings are the constant skeletons (numeric interpolation omitted). -/
def reasonsFor (data : Quote) (category : String) (ma : MarketAnalysis)
    (action : String) : List String :=
  let sector_data := categorySector category ma
  if action = "SELL" then
    (match sector_data with
     | none => []
     | some sd =>
        [if sd.sentiment = "weak" ∧ sd.performance < -1 then
          "Poor sector performance - reducing exposure"
         else if sd.sentiment = "strong" ∧ sd.performance > 2 then
          "Strong sector performance - profit taking opportunity"
         else "Mixed sector signals - strategic rebalancing"]) ++
    [if data.change < -3 then "Significant price decline - cutting losses"
     else if data.change > 5 then "Strong gains - taking profits"
     else "Moderate price action - portfolio rebalancing"] ++
    (match data.pe_ratio with
     | none => []
     | some pe =>
        [if pe > 30 then "Overvalued - profit taking"
         else if pe < 10 then "Undervalued but poor fundamentals - strategic exit"
         else "Fair valuation - rebalancing decision"]) ++
    [if ma.risk_assessment = "high" then
      "High volatility environment - reducing risk exposure"
     else if ma.risk_assessment = "low" then
      "Stable conditions - strategic portfolio optimization"
     else "Moderate risk - tactical position adjustment"]
  else
    (match sector_data with
     | none => []
     | some sd =>
        [if sd.sentiment = "strong" ∧ sd.performance > 1 then
          "Strong sector momentum - favorable entry point"
         else if sd.sentiment = "weak" ∧ sd.performance < -1 then
          "Weak sector performance - potential value opportunity"
         else "Stable sector performance - balanced risk/reward"]) ++
    [if data.change > 2 then "Strong price momentum - bullish trend"
     else if data.change < -2 then "Price weakness - potential oversold opportunity"
     else "Stable price action - steady performance"] ++
    [if data.dividend_yield > 3 then "Attractive dividend yield - income generation"
     else if data.dividend_yield > 1 then "Modest dividend yield - some income"
     else "Growth-focused low dividend - capital appreciation"] ++
    (match data.pe_ratio with
     | none => []
     | some pe =>
        [if pe < 15 then "Undervalued - potential upside"
         else if pe > 25 then "Premium valuation - growth expectations"
         else "Fair valuation - reasonable pricing"]) ++
    [if ma.recommendation = "aggressive_buy" then
      "Market conditions favor growth - aggressive positioning"
     else if ma.recommendation = "defensive" then
      "Defensive market conditions - capital preservation focus"
     else "Balanced market approach - diversified allocation"] ++
    [if ma.risk_assessment = "low" then
      "Low volatility environment - stable investment climate"
     else if ma.risk_assessment = "high" then
      "High volatility detected - cautious positioning"
     else "Moderate risk environment - standard allocation"]

/-- `generate_detailed_reasoning` (ai_services.py).  The first statement is the
unguarded subscript `data = stock_data[symbol]`, which raises KeyError when the
symbol has no quote; `shares` and `cost` are accepted but never read by the
body. -/
def generate_detailed_reasoning (symbol : String) (category : String)
    (ma : MarketAnalysis) (stock_data : List (String × Quote))
    (action : String) (_shares : ℤ) (_cost : ℚ) : Except String (List String) :=
  match pyLookup stock_data symbol with
  | none => .error ("KeyError: " ++ symbol)
  | some data => .ok (reasonsFor data category ma action)

/-! ## ai_services.py: advisor adapter -/

/-- One item of the oracle's `recommendations` array. -/
structure AdvRec where
  action : String
  symbol : String
  shares : ℤ
  reasoning : String
  priority : String
  deriving DecidableEq, Repr

/-- The structured advice object `get_ai_recommendations` returns. -/
structure AiData where
  analysis : String
  recommendations : List AdvRec
  risk_assessment : String
  market_timing : String
  deriving DecidableEq, Repr

/-- Behaviour of one synchronous oracle call: the call (or anything else inside
the outer `try`) raises, or returns a falsy/absent text, or returns text. -/
inductive OracleResult where
  | raises
  | noText
  | text (t : String)
  deriving DecidableEq, Repr

/-- The `re.search(r"\x7b.*\x7d", text, re.DOTALL)` candidate: the greedy match
runs from the first opening brace to the last closing brace, provided the
closing brace comes after the opening one. -/
def bracedSubstring (s : String) : Option String :=
  let cs := s.toList
  match cs.findIdx? (fun c => c = '{') with
  | none => none
  | some i =>
      match cs.reverse.findIdx? (fun c => c = '}') with
      | none => none
      | some jr =>
          let j := cs.length - 1 - jr
          if i < j then some (String.mk ((cs.drop i).take (j - i + 1))) else none

/-- The JSON candidate `get_ai_recommendations` hands to `json.loads`: the whole
stripped text when it starts with an opening brace and ends with a closing one,
else the greedy braced substring, else nothing. -/
def extractCandidate (stripped : String) : Option String :=
  if stripped.startsWith "\x7b" ∧ stripped.endsWith "\x7d" then some stripped
  else bracedSubstring stripped

/-- `get_ai_recommendations` (ai_services.py), abstracted over the JSON parse
(`json.loads` plus the dict-shape reading): `parse` returns the decoded advice
object or `none` when `json.loads` raises.  `OracleResult.raises` models an
exception from the oracle call (or any other statement inside the outer `try`),
which the outer `except` turns into the terminal text-only object. -/
def get_ai_recommendations (parse : String → Option AiData)
    (resp : OracleResult) : AiData :=
  match resp with
  | .raises =>
      { analysis := "AI analysis temporarily unavailable. Using algorithmic recommendations."
        recommendations := []
        risk_assessment := "Unable to assess"
        market_timing := "Unable to assess" }
  | .noText =>
      { analysis := "AI analysis completed but no response received. Using algorithmic recommendations."
        recommendations := []
        risk_assessment := "Unable to assess"
        market_timing := "Unable to assess" }
  | .text t =>
      let response_text := t.trim
      match extractCandidate response_text with
      | some candidate =>
          (match parse candidate with
           | some ai_data => ai_data
           | none =>
              { analysis := "AI Analysis: (truncated raw text)"
                recommendations := []
                risk_assessment := "AI provided analysis"
                market_timing := "AI provided analysis" })
      | none =>
          { analysis := response_text
            recommendations := []
            risk_assessment := "AI provided text analysis"
            market_timing := "AI provided text analysis" }

/-! ## portfolio_manager.py: execution applier -/

/-- Loop body of `execute_recommendations` (portfolio_manager.py) on the
accumulator (state, total_invested, total_sold).  The cache-clearing side
effects at the top of the Python function touch only UI caches and are out of
scope. -/
def execStep (acc : PortfolioState × ℚ × ℚ) (r : Rec) : PortfolioState × ℚ × ℚ :=
  let s := acc.1
  let total_invested := acc.2.1
  let total_sold := acc.2.2
  if r.action = "BUY" ∧ r.cost ≤ s.cash_balance then
    let portfolio :=
      match pyLookup s.portfolio r.symbol with
      | some cur => pyDictSet s.portfolio r.symbol (cur + r.shares)
      | none => pyDictSet s.portfolio r.symbol r.shares
    ({ portfolio := portfolio
       cash_balance := s.cash_balance - r.cost
       execution_history :=
         { action := "Bought " ++ toString r.shares ++ " shares of " ++ r.symbol
           amount := r.cost } :: s.execution_history },
     total_invested + r.cost, total_sold)
  else if r.action = "SELL" then
    match pyLookup s.portfolio r.symbol with
    | none => acc
    | some current_shares =>
        if r.shares ≤ current_shares then
          let p1 := pyDictSet s.portfolio r.symbol (current_shares - r.shares)
          let portfolio := if current_shares - r.shares = 0 then pyDictDel p1 r.symbol else p1
          ({ portfolio := portfolio
             cash_balance := s.cash_balance + r.cost
             execution_history :=
               { action := "Sold " ++ toString r.shares ++ " shares of " ++ r.symbol
                 amount := r.cost } :: s.execution_history },
           total_invested, total_sold + r.cost)
        else acc
  else acc

/-- The `for rec in recommendations` loop, strictly in order. -/
def execLoop (acc : PortfolioState × ℚ × ℚ) : List Rec → PortfolioState × ℚ × ℚ
  | [] => acc
  | r :: rest => execLoop (execStep acc r) rest

/-- `execute_recommendations` (portfolio_manager.py): apply the list to the
session state, returning the new state with (total_invested, total_sold). -/
def execute_recommendations (s : PortfolioState) (recs : List Rec) :
    PortfolioState × ℚ × ℚ :=
  execLoop (s, 0, 0) recs

/-! ## portfolio_manager.py: algorithmic rebalancing engine -/

/-- The local `etf_map` dict of `generate_algorithmic_recommendations`. -/
def etf_map (category : String) : Option String :=
  if category = "Stocks (US)" then some "VTI"
  else if category = "Stocks (Intl)" then some "VTIAX"
  else if category = "Bonds" then some "BND"
  else if category = "Real Estate" then some "VNQ"
  else none

/-- The `category_sentiment` selection repeated on both engine paths:
`sector_analysis.get(name, {}).get('sentiment', 'neutral')`. -/
def categorySentiment (category : String) (ma : MarketAnalysis) : String :=
  match categorySector category ma with
  | some sd => sd.sentiment
  | none => "neutral"

/-- The market-condition overlay on the target allocation (engine step 1).
The reads `target_allocation['Stocks (US)']` / `['Bonds']` are unguarded
subscripts, raising KeyError when the key is absent. -/
def adjustAllocation (target_allocation : List (String × ℚ))
    (recommendation : String) : Except String (List (String × ℚ)) :=
  if recommendation = "aggressive_buy" then
    match pyLookup target_allocation "Stocks (US)", pyLookup target_allocation "Bonds" with
    | some tus, some tb =>
        .ok (pyDictSet (pyDictSet target_allocation "Stocks (US)" (min 70 (tus + 10)))
              "Bonds" (max 5 (tb - 10)))
    | _, _ => .error "KeyError: allocation"
  else if recommendation = "defensive" then
    match pyLookup target_allocation "Stocks (US)", pyLookup target_allocation "Bonds" with
    | some tus, some tb =>
        .ok (pyDictSet (pyDictSet target_allocation "Bonds" (min 30 (tb + 15)))
              "Stocks (US)" (max 40 (tus - 15)))
    | _, _ => .error "KeyError: allocation"
  else .ok target_allocation

/-- `isinstance(pe_ratio, (int, float)) and pe_ratio > 30` (engine sell
trigger 3): known P/E above 30. -/
def peOver30 : Option ℚ → Prop
  | some pe => pe > 30
  | none => False

instance (o : Option ℚ) : Decidable (peOver30 o) :=
  match o with
  | some pe => inferInstanceAs (Decidable (pe > 30))
  | none => isFalse (fun h => h)

/-- Sell-evaluation body of the engine for one `(category, target_pct)` pair.
Note the unguarded `price = stock_data[symbol]` subscript: a held symbol with
positive shares but no quote raises KeyError. -/
def sellFor (portfolio : List (String × ℤ)) (current_breakdown : List (String × ℚ))
    (total_available : ℚ) (stock_data : List (String × Quote)) (ma : MarketAnalysis)
    (category : String) (target_pct : ℚ) : Except String (List Rec) :=
  let current_pct := ((pyLookup current_breakdown category).getD 0 / total_available) * 100
  match etf_map category with
  | none => .ok []
  | some symbol =>
      match pyLookup portfolio symbol with
      | none => .ok []
      | some current_shares =>
          if 0 < current_shares then
            match pyLookup stock_data symbol with
            | none => .error ("KeyError: " ++ symbol)
            | some data =>
                let price := data.price
                let cat_sent := categorySentiment category ma
                if current_pct > target_pct + 3 ∨ data.change < -3 ∨
                    peOver30 data.pe_ratio ∨
                    (cat_sent = "weak" ∧ current_pct > 5) ∨
                    (ma.risk_assessment = "high" ∧ current_pct > 15) then
                  let shares_to_sell : ℤ :=
                    if current_pct > target_pct + 3 then
                      pyInt (((current_pct - target_pct) / 100) * total_available / price)
                    else
                      let sell_pct : ℚ := if ma.risk_assessment = "high" then 1/5 else 3/20
                      pyInt ((current_shares : ℚ) * sell_pct)
                  let shares_to_sell := min shares_to_sell current_shares
                  let shares_to_sell := max 1 shares_to_sell
                  if 0 < shares_to_sell then
                    .ok [{ symbol := symbol
                           shares := shares_to_sell
                           cost := (shares_to_sell : ℚ) * price
                           category := category
                           current_pct := current_pct
                           target_pct := target_pct
                           ai_score := calculate_ai_score symbol stock_data
                           market_sentiment := cat_sent
                           action := "SELL"
                           detailed_reasons := reasonsFor data category ma "SELL" }]
                  else .ok []
                else .ok []
          else .ok []

/-- The engine's sell loop over the adjusted allocation, in order. -/
def sellLoop (portfolio : List (String × ℤ)) (current_breakdown : List (String × ℚ))
    (total_available : ℚ) (stock_data : List (String × Quote)) (ma : MarketAnalysis) :
    List (String × ℚ) → Except String (List Rec)
  | [] => .ok []
  | (category, target_pct) :: rest =>
      match sellFor portfolio current_breakdown total_available stock_data ma
        category target_pct with
      | .error e => .error e
      | .ok here =>
          match sellLoop portfolio current_breakdown total_available stock_data ma rest with
          | .error e => .error e
          | .ok later => .ok (here ++ later)

/-- Buy-allocation body of the engine for category index `i` of `n`, returning
the emitted recommendation (if any) and the new remaining cash.  The whole body
is guarded by `symbol and symbol in stock_data`; the last category takes
`remaining_cash` instead of its proportional slice and does not decrement it. -/
def buyStep (stock_data : List (String × Quote)) (ma : MarketAnalysis)
    (total_cash_available : ℚ) (n : ℕ) (i : ℕ) (category : String) (target_pct : ℚ)
    (remaining_cash : ℚ) : Option Rec × ℚ :=
  match etf_map category with
  | none => (none, remaining_cash)
  | some symbol =>
      match pyLookup stock_data symbol with
      | none => (none, remaining_cash)
      | some data =>
          let price := data.price
          let last := i = n - 1
          let shares_needed : ℤ :=
            if last then pyInt (remaining_cash / price)
            else pyInt (total_cash_available * (target_pct / 100) / price)
          let cost := (shares_needed : ℚ) * price
          let remaining_cash' := if last then remaining_cash else remaining_cash - cost
          if 0 < shares_needed then
            (some { symbol := symbol
                    shares := shares_needed
                    cost := cost
                    category := category
                    target_pct := target_pct
                    ai_score := calculate_ai_score symbol stock_data
                    market_sentiment := categorySentiment category ma
                    action := "BUY"
                    detailed_reasons := reasonsFor data category ma "BUY" },
             remaining_cash')
          else (none, remaining_cash')

/-- The engine's enumerated buy loop over the adjusted allocation. -/
def buyLoop (stock_data : List (String × Quote)) (ma : MarketAnalysis)
    (total_cash_available : ℚ) (n : ℕ) :
    ℕ → ℚ → List (String × ℚ) → List Rec
  | _, _, [] => []
  | i, remaining_cash, (category, target_pct) :: rest =>
      match buyStep stock_data ma total_cash_available n i category target_pct
        remaining_cash with
      | (some r, remaining') => r :: buyLoop stock_data ma total_cash_available n (i + 1) remaining' rest
      | (none, remaining') => buyLoop stock_data ma total_cash_available n (i + 1) remaining' rest

/-- Stable insertion into a list sorted descending by cost: an element moves
past another only when its cost is strictly larger, so equal costs keep their
original order — the behaviour of Python's stable `sorted(key=cost,
reverse=True)`. -/
def insertDescCost (x : Rec) : List Rec → List Rec
  | [] => [x]
  | y :: ys => if y.cost ≤ x.cost then x :: y :: ys else y :: insertDescCost x ys

/-- `sorted(all_recommendations, key=cost, reverse=True)`: stable descending
sort by cost. -/
def sortDescCost : List Rec → List Rec
  | [] => []
  | x :: xs => insertDescCost x (sortDescCost xs)

/-- `generate_algorithmic_recommendations` (portfolio_manager.py).  The session
portfolio dict is passed explicitly.  Unguarded subscripts (allocation overlay
keys, the sell-path quote lookup) surface as `Except.error`. -/
def generate_algorithmic_recommendations (portfolio : List (String × ℤ))
    (current_breakdown : List (String × ℚ)) (target_allocation : List (String × ℚ))
    (total_value cash_available : ℚ) (stock_data : List (String × Quote))
    (market_analysis : MarketAnalysis) : Except String (List Rec) :=
  match adjustAllocation target_allocation market_analysis.recommendation with
  | .error e => .error e
  | .ok adjusted_allocation =>
      let total_available := total_value + cash_available
      match sellLoop portfolio current_breakdown total_available
        stock_data market_analysis adjusted_allocation with
      | .error e => .error e
      | .ok sell_recommendations =>
          let total_sell_proceeds := (sell_recommendations.map (fun r => r.cost)).sum
          let total_cash_available := cash_available + total_sell_proceeds
          let recommendations := buyLoop stock_data market_analysis total_cash_available
            adjusted_allocation.length 0 total_cash_available adjusted_allocation
          .ok (sortDescCost (sell_recommendations ++ recommendations))

/-! ## portfolio_manager.py: diversified fallback -/

/-- The best-performer scan of `generate_diversified_recommendations`: walk the
category's candidate list keeping the strictly best change seen so far,
starting from the `-999` sentinel. -/
def bestScan (stock_data : List (String × Quote)) :
    List String → (Option String × ℚ) → Option String × ℚ
  | [], acc => acc
  | symbol :: rest, (best_symbol, best_performance) =>
      match pyLookup stock_data symbol with
      | some data =>
          if data.change > best_performance then
            bestScan stock_data rest (some symbol, data.change)
          else bestScan stock_data rest (best_symbol, best_performance)
      | none => bestScan stock_data rest (best_symbol, best_performance)

/-- Category body of `generate_diversified_recommendations`: pick the best
performer (falling back to the first candidate when the scan found nothing),
then buy `int(remaining * pct/100 / price)` shares when at least one. -/
def divStep (stock_data : List (String × Quote)) (category : String)
    (target_pct : ℚ) (remaining_cash : ℚ) : Option Rec × ℚ :=
  let available_symbols := (pyLookup DIVERSIFIED_ETF_MAP category).getD []
  let best_symbol := (bestScan stock_data available_symbols (none, -999)).1
  let best_symbol := match best_symbol with
    | some s => some s
    | none => available_symbols.head?
  match best_symbol with
  | none => (none, remaining_cash)
  | some best =>
      match pyLookup stock_data best with
      | none => (none, remaining_cash)
      | some data =>
          let price := data.price
          let cash_for_category := remaining_cash * (target_pct / 100)
          let shares_needed : ℤ := pyInt (cash_for_category / price)
          if 0 < shares_needed then
            let cost := (shares_needed : ℚ) * price
            (some { symbol := best
                    shares := shares_needed
                    cost := cost
                    category := category
                    action := "BUY"
                    priority := "Medium"
                    ai_generated := false },
             remaining_cash - cost)
          else (none, remaining_cash)

/-- The category loop of `generate_diversified_recommendations`. -/
def divLoop (stock_data : List (String × Quote)) :
    ℚ → List (String × ℚ) → List Rec
  | _, [] => []
  | remaining_cash, (category, target_pct) :: rest =>
      match divStep stock_data category target_pct remaining_cash with
      | (some r, remaining') => r :: divLoop stock_data remaining' rest
      | (none, remaining') => divLoop stock_data remaining' rest

/-- `generate_diversified_recommendations` (portfolio_manager.py). -/
def generate_diversified_recommendations (cash_available : ℚ)
    (target_allocation : List (String × ℚ)) (stock_data : List (String × Quote)) :
    List Rec :=
  divLoop stock_data cash_available target_allocation

/-! ## Dict lemmas -/

theorem pyLookup_pyDictSet_self (l : List (String × α)) (k : String) (v : α) :
    pyLookup (pyDictSet l k v) k = some v := by
  induction l with
  | nil => simp [pyLookup, pyDictSet]
  | cons p rest ih =>
      by_cases h : p.1 = k
      · simp [pyLookup, pyDictSet, h]
      · simp [pyLookup, pyDictSet, h, ih]

theorem pyLookup_pyDictSet_other (l : List (String × α)) (k k' : String) (v : α)
    (h : k' ≠ k) : pyLookup (pyDictSet l k v) k' = pyLookup l k' := by
  induction l with
  | nil => simp [pyLookup, pyDictSet, Ne.symm h]
  | cons p rest ih =>
      by_cases hp : p.1 = k
      · simp [pyLookup, pyDictSet, hp, Ne.symm h]
      · simp only [pyDictSet, if_neg hp, pyLookup]
        by_cases hq : p.1 = k'
        · simp [hq]
        · simp [hq, ih]

theorem pyLookup_pyDictDel_self (l : List (String × α)) (k : String) :
    pyLookup (pyDictDel l k) k = none := by
  induction l with
  | nil => simp [pyLookup, pyDictDel]
  | cons p rest ih =>
      by_cases h : p.1 = k
      · simpa [pyDictDel, h] using ih
      · simpa [pyDictDel, pyLookup, h] using ih

theorem pyLookup_pyDictDel_other (l : List (String × α)) (k k' : String)
    (h : k' ≠ k) : pyLookup (pyDictDel l k) k' = pyLookup l k' := by
  induction l with
  | nil => simp [pyLookup, pyDictDel]
  | cons p rest ih =>
      by_cases hp : p.1 = k
      · simpa [pyDictDel, pyLookup, hp, Ne.symm h] using ih
      · by_cases hq : p.1 = k'
        · simp [pyDictDel, pyLookup, hp, hq, h]
        · simpa [pyDictDel, pyLookup, hp, hq] using ih

/-! ## C8: scoring engine -/

/-- Helper: the code's sign-split momentum term is the spec's symmetric clamp. -/
theorem momentum_clamp (c : ℚ) :
    (if 0 < c then min (c * 2) 15 else max (c * 2) (-15)) =
      max (-15) (min 15 (c * 2)) := by
  by_cases h : 0 < c
  · rw [if_pos h, min_comm, max_eq_right (le_min (by norm_num) (by linarith))]
  · rw [if_neg h, min_eq_right (by push_neg at h; linarith), max_comm]

/-- C8 (amended): for every symbol and quote map, `calculate_ai_score` returns
the rational `50 + clamp(change × 2, -15, 15) + (10 if dividend_yield > 2) +
(10 if pe_ratio known and 10 ≤ pe ≤ 25)` clamped to [20, 95] (50 for an unknown
symbol), and the result always lies in [20, 95]; it is not in general an
integer. -/
theorem calculate_ai_score_spec_and_bounds (symbol : String)
    (stock_data : List (String × Quote)) :
    calculate_ai_score symbol stock_data = aiScoreSpec symbol stock_data ∧
      20 ≤ calculate_ai_score symbol stock_data ∧
      calculate_ai_score symbol stock_data ≤ 95 := by
  have hb : ∀ x : ℚ, 20 ≤ max 20 (min 95 x) ∧ max 20 (min 95 x) ≤ 95 := by
    intro x
    exact ⟨le_max_left _ _, max_le (by norm_num) (min_le_left _ _)⟩
  unfold calculate_ai_score aiScoreSpec
  cases h : pyLookup stock_data symbol with
  | none => exact ⟨rfl, by norm_num, by norm_num⟩
  | some data =>
      simp only []
      refine ⟨?_, ?_, ?_⟩
      · have hm := momentum_clamp data.change
        cases hpe : data.pe_ratio with
        | none =>
            by_cases hd : 2 < data.dividend_yield <;>
              simp [hd, ← hm] <;> split_ifs <;> ring_nf
        | some pe =>
            by_cases hd : 2 < data.dividend_yield <;>
              by_cases hp : 10 ≤ pe ∧ pe ≤ 25 <;>
                simp [hd, hp, ← hm] <;> split_ifs <;> ring_nf
      · exact (hb _).1
      · exact (hb _).2

/-- Concrete quote map for the C8 counterexample: change 0.25 percent. -/
def c8StockData : List (String × Quote) :=
  [("VTI", { price := 100, change := 1/4, dividend_yield := 0, pe_ratio := none })]

/-- C8 counterexample: the claim says the score is an integer, but with
change 0.25 the score is 50.5, not an integer. -/
theorem calculate_ai_score_not_integer :
    calculate_ai_score "VTI" c8StockData = 101/2 ∧
      ¬ ∃ n : ℤ, calculate_ai_score "VTI" c8StockData = (n : ℚ) := by
  have hval : calculate_ai_score "VTI" c8StockData = 101/2 := by
    simp only [calculate_ai_score, c8StockData, pyLookup]
    norm_num
  refine ⟨hval, ?_⟩
  rintro ⟨n, hn⟩
  rw [hval] at hn
  have h2 : (101 : ℚ) = 2 * (n : ℚ) := by
    field_simp at hn
    linarith
  have h3 : (101 : ℤ) = 2 * n := by exact_mod_cast h2
  omega

/-! ## C2: execution applier per-item semantics -/

/-- C2: the applier processes recommendations strictly in order; a BUY is
applied iff `cost ≤ cash_balance` (adding the shares to the holding, creating
it if absent, subtracting exactly the cost, prepending exactly one log entry);
a SELL is applied iff the symbol is held with at least the recommended shares
(subtracting them, deleting the holding at zero, adding exactly the cost,
prepending one log entry); a recommendation failing its guard leaves the state
unchanged. -/
theorem execute_recommendations_item_semantics
    (s : PortfolioState) (ti ts : ℚ) (r : Rec) (rest : List Rec) :
    execLoop (s, ti, ts) (r :: rest) = execLoop (execStep (s, ti, ts) r) rest ∧
    (r.action = "BUY" → r.cost ≤ s.cash_balance →
      (execStep (s, ti, ts) r).1.cash_balance = s.cash_balance - r.cost ∧
      pyLookup (execStep (s, ti, ts) r).1.portfolio r.symbol =
        some ((pyLookup s.portfolio r.symbol).getD 0 + r.shares) ∧
      (∀ k, k ≠ r.symbol →
        pyLookup (execStep (s, ti, ts) r).1.portfolio k = pyLookup s.portfolio k) ∧
      (∃ e : LogEntry,
        (execStep (s, ti, ts) r).1.execution_history = e :: s.execution_history)) ∧
    (r.action = "BUY" → ¬ r.cost ≤ s.cash_balance →
      execStep (s, ti, ts) r = (s, ti, ts)) ∧
    (r.action = "SELL" → ∀ cur, pyLookup s.portfolio r.symbol = some cur →
      r.shares ≤ cur →
      (execStep (s, ti, ts) r).1.cash_balance = s.cash_balance + r.cost ∧
      pyLookup (execStep (s, ti, ts) r).1.portfolio r.symbol =
        (if cur - r.shares = 0 then none else some (cur - r.shares)) ∧
      (∀ k, k ≠ r.symbol →
        pyLookup (execStep (s, ti, ts) r).1.portfolio k = pyLookup s.portfolio k) ∧
      (∃ e : LogEntry,
        (execStep (s, ti, ts) r).1.execution_history = e :: s.execution_history)) ∧
    (r.action = "SELL" → pyLookup s.portfolio r.symbol = none →
      execStep (s, ti, ts) r = (s, ti, ts)) ∧
    (r.action = "SELL" → ∀ cur, pyLookup s.portfolio r.symbol = some cur →
      ¬ r.shares ≤ cur → execStep (s, ti, ts) r = (s, ti, ts)) ∧
    (r.action ≠ "BUY" → r.action ≠ "SELL" → execStep (s, ti, ts) r = (s, ti, ts)) := by
  have hBuyNeSell : ("BUY" : String) ≠ "SELL" := by decide
  refine ⟨rfl, ?_, ?_, ?_, ?_, ?_, ?_⟩
  · intro hb hc
    simp only [execStep, if_pos (And.intro hb hc)]
    cases hl : pyLookup s.portfolio r.symbol with
    | none =>
        refine ⟨by trivial, ?_, ?_, ⟨_, rfl⟩⟩
        · simp [hl, pyLookup_pyDictSet_self]
        · intro k hk
          simp [hl, pyLookup_pyDictSet_other _ _ _ _ hk]
    | some cur =>
        refine ⟨by trivial, ?_, ?_, ⟨_, rfl⟩⟩
        · simp [hl, pyLookup_pyDictSet_self]
        · intro k hk
          simp [hl, pyLookup_pyDictSet_other _ _ _ _ hk]
  · intro hb hc
    have : ¬ (r.action = "BUY" ∧ r.cost ≤ s.cash_balance) := fun h => hc h.2
    rw [execStep, if_neg this, if_neg (by rw [hb]; exact hBuyNeSell)]
  · intro hsell cur hl hle
    have hnb : ¬ (r.action = "BUY" ∧ r.cost ≤ s.cash_balance) := by
      rintro ⟨hb, -⟩
      exact hBuyNeSell (hb.symm.trans hsell)
    simp only [execStep, if_neg hnb, if_pos hsell, hl, if_pos hle]
    by_cases hz : cur - r.shares = 0
    · refine ⟨by trivial, ?_, ?_, ⟨_, rfl⟩⟩
      · simp [hz, pyLookup_pyDictDel_self]
      · intro k hk
        simp [hz, pyLookup_pyDictDel_other _ _ _ hk,
          pyLookup_pyDictSet_other _ _ _ _ hk]
    · refine ⟨by trivial, ?_, ?_, ⟨_, rfl⟩⟩
      · simp [hz, pyLookup_pyDictSet_self]
      · intro k hk
        simp [hz, pyLookup_pyDictSet_other _ _ _ _ hk]
  · intro hsell hl
    have hnb : ¬ (r.action = "BUY" ∧ r.cost ≤ s.cash_balance) := by
      rintro ⟨hb, -⟩
      exact hBuyNeSell (hb.symm.trans hsell)
    simp only [execStep, if_neg hnb, if_pos hsell, hl]
  · intro hsell cur hl hgt
    have hnb : ¬ (r.action = "BUY" ∧ r.cost ≤ s.cash_balance) := by
      rintro ⟨hb, -⟩
      exact hBuyNeSell (hb.symm.trans hsell)
    simp only [execStep, if_neg hnb, if_pos hsell, hl, if_neg hgt]
  · intro hb hsell
    have hnb : ¬ (r.action = "BUY" ∧ r.cost ≤ s.cash_balance) := fun h => hb h.1
    rw [execStep, if_neg hnb, if_neg hsell]

/-- Concrete state for the C2 witness. -/
def c2State : PortfolioState :=
  { portfolio := [("VTI", 2)], cash_balance := 100, execution_history := [] }

/-- Concrete BUY recommendation for the C2 witness. -/
def c2Rec : Rec := { symbol := "BND", shares := 1, cost := 40, action := "BUY" }

/-- C2 witness: the per-item semantics at a concrete applied BUY. -/
theorem execute_recommendations_item_semantics_witness :
    (execStep (c2State, 0, 0) c2Rec).1.cash_balance = c2State.cash_balance - c2Rec.cost ∧
    pyLookup (execStep (c2State, 0, 0) c2Rec).1.portfolio c2Rec.symbol =
      some ((pyLookup c2State.portfolio c2Rec.symbol).getD 0 + c2Rec.shares) ∧
    (∀ k, k ≠ c2Rec.symbol →
      pyLookup (execStep (c2State, 0, 0) c2Rec).1.portfolio k =
        pyLookup c2State.portfolio k) ∧
    (∃ e : LogEntry,
      (execStep (c2State, 0, 0) c2Rec).1.execution_history =
        e :: c2State.execution_history) :=
  (execute_recommendations_item_semantics c2State 0 0 c2Rec []).2.1 rfl
    (by norm_num [c2Rec, c2State])

/-! ## C1: applier state invariants -/

/-- Helper for C1: one applier step keeps cash non-negative and all held share
counts positive, provided the recommendation has positive shares and
non-negative cost. -/
theorem execStep_preserves_invariants (acc : PortfolioState × ℚ × ℚ) (r : Rec)
    (hc : 0 ≤ acc.1.cash_balance)
    (hp : ∀ k v, pyLookup acc.1.portfolio k = some v → 0 < v)
    (hs : 0 < r.shares) (hcost : 0 ≤ r.cost) :
    0 ≤ (execStep acc r).1.cash_balance ∧
      ∀ k v, pyLookup (execStep acc r).1.portfolio k = some v → 0 < v := by
  obtain ⟨s, ti, ts⟩ := acc
  by_cases hbuy : r.action = "BUY" ∧ r.cost ≤ s.cash_balance
  · simp only [execStep, if_pos hbuy]
    constructor
    · simpa using sub_nonneg.mpr hbuy.2
    · intro k v hkv
      cases hl : pyLookup s.portfolio r.symbol with
      | none =>
          rw [hl] at hkv
          by_cases hk : k = r.symbol
          · subst hk
            rw [pyLookup_pyDictSet_self] at hkv
            cases hkv
            exact hs
          · rw [pyLookup_pyDictSet_other _ _ _ _ hk] at hkv
            exact hp k v hkv
      | some cur =>
          rw [hl] at hkv
          by_cases hk : k = r.symbol
          · subst hk
            rw [pyLookup_pyDictSet_self] at hkv
            cases hkv
            exact add_pos (hp _ _ hl) hs
          · rw [pyLookup_pyDictSet_other _ _ _ _ hk] at hkv
            exact hp k v hkv
  · by_cases hsell : r.action = "SELL"
    · cases hl : pyLookup s.portfolio r.symbol with
      | none =>
          simp only [execStep, if_neg hbuy, if_pos hsell, hl]
          exact ⟨hc, hp⟩
      | some cur =>
          by_cases hle : r.shares ≤ cur
          · simp only [execStep, if_neg hbuy, if_pos hsell, hl, if_pos hle]
            constructor
            · simpa using add_nonneg hc hcost
            · intro k v hkv
              by_cases hz : cur - r.shares = 0
              · simp only [if_pos hz] at hkv
                by_cases hk : k = r.symbol
                · subst hk
                  rw [pyLookup_pyDictDel_self] at hkv
                  cases hkv
                · rw [pyLookup_pyDictDel_other _ _ _ hk,
                    pyLookup_pyDictSet_other _ _ _ _ hk] at hkv
                  exact hp k v hkv
              · simp only [if_neg hz] at hkv
                by_cases hk : k = r.symbol
                · subst hk
                  rw [pyLookup_pyDictSet_self] at hkv
                  cases hkv
                  omega
                · rw [pyLookup_pyDictSet_other _ _ _ _ hk] at hkv
                  exact hp k v hkv
          · simp only [execStep, if_neg hbuy, if_pos hsell, hl, if_neg hle]
            exact ⟨hc, hp⟩
    · simp only [execStep, if_neg hbuy, if_neg hsell]
      exact ⟨hc, hp⟩

/-- Helper for C1: loop form of the invariant. -/
theorem execLoop_preserves_invariants (recs : List Rec) :
    ∀ acc : PortfolioState × ℚ × ℚ, 0 ≤ acc.1.cash_balance →
    (∀ k v, pyLookup acc.1.portfolio k = some v → 0 < v) →
    (∀ r ∈ recs, 0 < r.shares ∧ 0 ≤ r.cost) →
    0 ≤ (execLoop acc recs).1.cash_balance ∧
      ∀ k v, pyLookup (execLoop acc recs).1.portfolio k = some v → 0 < v := by
  induction recs with
  | nil => intro acc hc hp _; exact ⟨hc, hp⟩
  | cons r rest ih =>
      intro acc hc hp hr
      have hstep := execStep_preserves_invariants acc r hc hp
        (hr r (List.mem_cons_self r rest)).1 (hr r (List.mem_cons_self r rest)).2
      exact ih (execStep acc r) hstep.1 hstep.2
        (fun x hx => hr x (List.mem_cons_of_mem r hx))

/-- C1 (amended): starting from non-negative cash and strictly positive share
counts, and for any recommendation list whose items have positive shares and
non-negative cost, `execute_recommendations` keeps `cash_balance ≥ 0` and every
holding still present keeps a positive share count.  (The original claim, which
allowed arbitrary recommendation payloads and merely non-negative starting
share counts, is refuted by `execute_recommendations_negative_cash`.) -/
theorem execute_recommendations_preserves_invariants
    (s : PortfolioState) (recs : List Rec)
    (hc : 0 ≤ s.cash_balance)
    (hp : ∀ k v, pyLookup s.portfolio k = some v → 0 < v)
    (hr : ∀ r ∈ recs, 0 < r.shares ∧ 0 ≤ r.cost) :
    0 ≤ (execute_recommendations s recs).1.cash_balance ∧
      ∀ k v, pyLookup (execute_recommendations s recs).1.portfolio k = some v → 0 < v :=
  execLoop_preserves_invariants recs (s, 0, 0) hc hp hr

/-- Concrete state for the C1 theorems: one share held, no cash. -/
def c1State : PortfolioState :=
  { portfolio := [("VTI", 1)], cash_balance := 0, execution_history := [] }

/-- Concrete adversarial list for the C1 counterexample: a SELL whose `cost`
field is negative. -/
def c1Recs : List Rec := [{ symbol := "VTI", shares := 1, cost := -5, action := "SELL" }]

/-- C1 counterexample: from a state satisfying the claimed precondition
(cash 0, all share counts non-negative), the recommendation list `c1Recs`
drives `cash_balance` to -5 < 0, because the applier trusts the `cost` field
of a SELL. -/
theorem execute_recommendations_negative_cash :
    c1State.cash_balance = 0 ∧ c1State.portfolio = [("VTI", 1)] ∧
      (execute_recommendations c1State c1Recs).1.cash_balance = -5 ∧
      ((-5 : ℚ) < 0) := by
  refine ⟨rfl, rfl, ?_, by norm_num⟩
  show (execLoop (c1State, 0, 0) c1Recs).1.cash_balance = -5
  simp [c1Recs, execLoop, execStep, c1State, pyLookup, pyDictSet, pyDictDel]

/-- C1 witness: the amended invariant at the concrete state `c1State` with a
valid SELL of the whole holding at cost 5. -/
theorem execute_recommendations_preserves_invariants_witness :
    0 ≤ (execute_recommendations c1State
        [{ symbol := "VTI", shares := 1, cost := 5, action := "SELL" }]).1.cash_balance ∧
      ∀ k v, pyLookup (execute_recommendations c1State
        [{ symbol := "VTI", shares := 1, cost := 5, action := "SELL" }]).1.portfolio k =
          some v → 0 < v := by
  refine execute_recommendations_preserves_invariants c1State _ (by norm_num [c1State]) ?_ ?_
  · intro k v hkv
    by_cases hk : k = "VTI"
    · subst hk
      simp [c1State, pyLookup] at hkv
      omega
    · simp [c1State, pyLookup, Ne.symm hk] at hkv
  · intro r hr
    simp only [List.mem_singleton] at hr
    subst hr
    norm_num

/-! ## C3: advisor adapter failure behaviour -/

/-- No JSON object can be extracted from oracle text `t`: the candidate the
code selects (the stripped text itself, or the greedy braced substring) fails
to parse, or there is no candidate at all. -/
def extractionFails (parse : String → Option AiData) (t : String) : Prop :=
  match extractCandidate t.trim with
  | some c => parse c = none
  | none => True

/-- C3: the advisor adapter never propagates a failure: whenever the oracle
call raises, returns no text, or returns text from which no JSON object can be
extracted, `get_ai_recommendations` returns a structured advice object with an
empty recommendations list (the caller's fallback signal). -/
theorem get_ai_recommendations_failure_empty (parse : String → Option AiData)
    (resp : OracleResult)
    (h : resp = .raises ∨ resp = .noText ∨
      ∃ t, resp = .text t ∧ extractionFails parse t) :
    (get_ai_recommendations parse resp).recommendations = [] := by
  rcases h with h | h | ⟨t, ht, hf⟩
  · subst h; rfl
  · subst h; rfl
  · subst ht
    unfold get_ai_recommendations
    unfold extractionFails at hf
    cases hc : extractCandidate t.trim with
    | none => simp [hc]
    | some c =>
        rw [hc] at hf
        simp [hc, hf]

/-- C3 witness: the adapter at a concrete raising oracle call. -/
theorem get_ai_recommendations_failure_empty_witness :
    (get_ai_recommendations (fun _ => none) .raises).recommendations = [] :=
  get_ai_recommendations_failure_empty (fun _ => none) .raises (Or.inl rfl)

/-! ## C7: reasoning generator fragment count -/

/-- C7 (amended): when the symbol has a quote, `generate_detailed_reasoning`
returns the fixed-order ladder output, whose length is 2 (SELL) or 4 (BUY)
plus one for the sector step (present iff the category maps to a sector entry)
plus one for the valuation step (present iff the P/E is known) — between 2 and
4 reasons for SELL, between 4 and 6 for BUY, not always four or five; when the
symbol has no quote the function raises KeyError instead of returning. -/
theorem generate_detailed_reasoning_count (symbol category : String)
    (ma : MarketAnalysis) (sd : List (String × Quote)) (action : String)
    (sh : ℤ) (c : ℚ) (q : Quote) (hq : pyLookup sd symbol = some q) :
    generate_detailed_reasoning symbol category ma sd action sh c =
      .ok (reasonsFor q category ma action) ∧
    (reasonsFor q category ma action).length =
      (if action = "SELL" then 2 else 4) +
        (if (categorySector category ma).isSome then 1 else 0) +
        (if q.pe_ratio.isSome then 1 else 0) := by
  constructor
  · simp [generate_detailed_reasoning, hq]
  · by_cases ha : action = "SELL" <;>
      cases hs : categorySector category ma <;>
        cases hp : q.pe_ratio <;>
          simp [reasonsFor, ha, hs, hp]

/-- Market analysis with a mapped sector entry, for the C7 theorems. -/
def c7MA : MarketAnalysis :=
  { market_sentiment := "neutral"
    key_insights := []
    sector_analysis := [("US Large Cap",
      { performance := 2, dividend_yield := 1, sentiment := "strong" })]
    risk_assessment := "medium"
    recommendation := "balanced" }

/-- Quote map with a known P/E, for the C7 counterexample. -/
def c7SD : List (String × Quote) :=
  [("VTI", { price := 100, change := 3, dividend_yield := 2, pe_ratio := some 20 })]

/-- C7 counterexample: a BUY whose category has a sector entry and whose quote
has a known P/E yields six reason strings, not four or five. -/
theorem generate_detailed_reasoning_six_reasons :
    (generate_detailed_reasoning "VTI" "Stocks (US)" c7MA c7SD "BUY" 1 100).map
        List.length = .ok 6 ∧
      ¬ ((6 : ℕ) = 4 ∨ (6 : ℕ) = 5) := by
  constructor
  · simp only [generate_detailed_reasoning, c7SD, pyLookup, if_pos rfl]
    simp only [reasonsFor, categorySector, c7MA, pyLookup]
    rfl
  · decide

/-- C7 witness: the count formula at a concrete SELL with no sector entry and
unknown P/E (two reasons). -/
theorem generate_detailed_reasoning_count_witness :
    generate_detailed_reasoning "X" "Other" c7MA
        [("X", { price := 1, change := 0, dividend_yield := 0, pe_ratio := none })]
        "SELL" 1 1 =
      .ok (reasonsFor { price := 1, change := 0, dividend_yield := 0, pe_ratio := none }
        "Other" c7MA "SELL") ∧
    (reasonsFor { price := 1, change := 0, dividend_yield := 0, pe_ratio := none }
        "Other" c7MA "SELL").length =
      (if ("SELL" : String) = "SELL" then 2 else 4) +
        (if (categorySector "Other" c7MA).isSome then 1 else 0) +
        (if (Option.none (α := ℚ)).isSome then 1 else 0) := by
  have := generate_detailed_reasoning_count "X" "Other" c7MA
    [("X", { price := 1, change := 0, dividend_yield := 0, pe_ratio := none })]
    "SELL" 1 1 { price := 1, change := 0, dividend_yield := 0, pe_ratio := none }
    (by simp [pyLookup])
  exact this

/-! ## C9: market analyzer sentiment partition -/

/-- C9: on a non-empty quote set the analyzer picks exactly one sentiment by
the fraction `p` of quotes with positive change — bullish iff `p > 0.7`,
bearish iff `p < 0.3`, neutral otherwise — and the corresponding fixed insight
string is the first insight appended. -/
theorem analyze_market_conditions_sentiment (research_data : List (String × Quote))
    (hne : research_data ≠ []) :
    ((analyze_market_conditions research_data).market_sentiment = "bullish" ↔
      ((research_data.filter (fun q => 0 < q.2.change)).length : ℚ) /
        (research_data.length : ℚ) > 7/10) ∧
    ((analyze_market_conditions research_data).market_sentiment = "bearish" ↔
      ((research_data.filter (fun q => 0 < q.2.change)).length : ℚ) /
        (research_data.length : ℚ) < 3/10) ∧
    ((analyze_market_conditions research_data).market_sentiment = "neutral" ↔
      (¬ ((research_data.filter (fun q => 0 < q.2.change)).length : ℚ) /
        (research_data.length : ℚ) > 7/10 ∧
       ¬ ((research_data.filter (fun q => 0 < q.2.change)).length : ℚ) /
        (research_data.length : ℚ) < 3/10)) ∧
    (analyze_market_conditions research_data).key_insights.head? =
      some (if ((research_data.filter (fun q => 0 < q.2.change)).length : ℚ) /
          (research_data.length : ℚ) > 7/10 then
        "Strong positive momentum across major indices"
      else if ((research_data.filter (fun q => 0 < q.2.change)).length : ℚ) /
          (research_data.length : ℚ) < 3/10 then
        "Widespread selling pressure in markets"
      else "Mixed signals with sector rotation") := by
  have hemp : research_data.isEmpty = false := by
    simpa [List.isEmpty_iff] using hne
  unfold analyze_market_conditions
  by_cases h1 : ((research_data.filter (fun q => 0 < q.2.change)).length : ℚ) /
      (research_data.length : ℚ) > 7/10
  · have h2 : ¬ ((research_data.filter (fun q => 0 < q.2.change)).length : ℚ) /
        (research_data.length : ℚ) < 3/10 := by
      simp only [gt_iff_lt] at h1
      linarith
    simp [hemp, h1, h2]
  · by_cases h2 : ((research_data.filter (fun q => 0 < q.2.change)).length : ℚ) /
        (research_data.length : ℚ) < 3/10
    · simp [hemp, h1, h2]
    · simp [hemp, h1, h2]

/-- Quote set for the C9 witness: one quote, positive change. -/
def c9Data : List (String × Quote) :=
  [("VTI", { price := 100, change := 1, dividend_yield := 0, pe_ratio := none })]

/-- C9 witness: on `c9Data` the fraction is 1 > 0.7, so the analyzer is
bullish. -/
theorem analyze_market_conditions_sentiment_witness :
    (analyze_market_conditions c9Data).market_sentiment = "bullish" := by
  refine ((analyze_market_conditions_sentiment c9Data (by simp [c9Data])).1).mpr ?_
  simp [c9Data]
  norm_num

/-! ## Stable-sort lemmas for the engine ordering -/

/-- The equal-cost tie discipline of the final ordering: a BUY never comes
before an equal-cost SELL. -/
def costTieOrd (a b : Rec) : Prop :=
  a.cost = b.cost → ¬ (a.action = "BUY" ∧ b.action = "SELL")

theorem mem_insertDescCost {a x : Rec} {l : List Rec} :
    a ∈ insertDescCost x l ↔ a = x ∨ a ∈ l := by
  induction l with
  | nil => simp [insertDescCost]
  | cons y ys ih =>
      by_cases h : y.cost ≤ x.cost
      · simp [insertDescCost, h]
      · simp only [insertDescCost, if_neg h, List.mem_cons, ih]
        tauto

theorem mem_sortDescCost {a : Rec} {l : List Rec} :
    a ∈ sortDescCost l ↔ a ∈ l := by
  induction l with
  | nil => simp [sortDescCost]
  | cons x xs ih =>
      simp [sortDescCost, mem_insertDescCost, ih]

theorem sorted_insertDescCost (x : Rec) (l : List Rec)
    (h : l.Pairwise (fun a b => b.cost ≤ a.cost)) :
    (insertDescCost x l).Pairwise (fun a b => b.cost ≤ a.cost) := by
  induction l with
  | nil => simp [insertDescCost]
  | cons y ys ih =>
      rcases List.pairwise_cons.mp h with ⟨hy, hys⟩
      by_cases hc : y.cost ≤ x.cost
      · rw [insertDescCost, if_pos hc]
        refine List.Pairwise.cons ?_ h
        intro b hb
        rcases List.mem_cons.mp hb with rfl | hb
        · exact hc
        · exact le_trans (hy b hb) hc
      · rw [insertDescCost, if_neg hc]
        refine List.Pairwise.cons ?_ (ih hys)
        intro b hb
        rcases mem_insertDescCost.mp hb with rfl | hb
        · exact le_of_lt (lt_of_not_le hc)
        · exact hy b hb

theorem sorted_sortDescCost (l : List Rec) :
    (sortDescCost l).Pairwise (fun a b => b.cost ≤ a.cost) := by
  induction l with
  | nil => simp [sortDescCost]
  | cons x xs ih => exact sorted_insertDescCost x (sortDescCost xs) ih

theorem tie_insertDescCost (x : Rec) (l : List Rec)
    (hl : l.Pairwise costTieOrd) (hx : ∀ y ∈ l, costTieOrd x y) :
    (insertDescCost x l).Pairwise costTieOrd := by
  induction l with
  | nil => simp [insertDescCost]
  | cons y ys ih =>
      rcases List.pairwise_cons.mp hl with ⟨hy, hys⟩
      by_cases hc : y.cost ≤ x.cost
      · rw [insertDescCost, if_pos hc]
        exact List.Pairwise.cons (fun b hb => hx b hb) hl
      · rw [insertDescCost, if_neg hc]
        refine List.Pairwise.cons ?_
          (ih hys (fun b hb => hx b (List.mem_cons_of_mem y hb)))
        intro b hb
        rcases mem_insertDescCost.mp hb with rfl | hb
        · intro hcq
          exact absurd (le_of_eq hcq) hc
        · exact hy b hb

theorem tie_sortDescCost (l : List Rec) (h : l.Pairwise costTieOrd) :
    (sortDescCost l).Pairwise costTieOrd := by
  induction l with
  | nil => simp [sortDescCost]
  | cons x xs ih =>
      rcases List.pairwise_cons.mp h with ⟨hx, hxs⟩
      exact tie_insertDescCost x (sortDescCost xs) (ih hxs)
        (fun y hy => hx y (mem_sortDescCost.mp hy))

/-! ## Action tags of the two engine loops -/

theorem sellFor_actions {portfolio : List (String × ℤ)} {bd : List (String × ℚ)}
    {ta : ℚ} {sd : List (String × Quote)} {ma : MarketAnalysis}
    {cat : String} {tp : ℚ} {recs : List Rec}
    (h : sellFor portfolio bd ta sd ma cat tp = .ok recs) :
    ∀ r ∈ recs, r.action = "SELL" := by
  intro r hr
  unfold sellFor at h
  cases he : etf_map cat with
  | none =>
      rw [he] at h
      dsimp only [] at h
      injection h with h
      subst h
      simp at hr
  | some symbol =>
      rw [he] at h
      dsimp only [] at h
      cases hp : pyLookup portfolio symbol with
      | none =>
          rw [hp] at h
          dsimp only [] at h
          injection h with h
          subst h
          simp at hr
      | some cur =>
          rw [hp] at h
          dsimp only [] at h
          by_cases hc : (0 : ℤ) < cur
          · rw [if_pos hc] at h
            cases hq : pyLookup sd symbol with
            | none =>
                rw [hq] at h
                dsimp only [] at h
                exact absurd h (by simp)
            | some data =>
                rw [hq] at h
                dsimp only [] at h
                repeat' split at h
                all_goals injection h with h
                all_goals subst h
                all_goals
                  first
                    | (rcases List.mem_singleton.mp hr with rfl; rfl)
                    | simp at hr
          · rw [if_neg hc] at h
            injection h with h
            subst h
            simp at hr

theorem sellLoop_actions {portfolio : List (String × ℤ)} {bd : List (String × ℚ)}
    {ta : ℚ} {sd : List (String × Quote)} {ma : MarketAnalysis}
    {alloc : List (String × ℚ)} {recs : List Rec}
    (h : sellLoop portfolio bd ta sd ma alloc = .ok recs) :
    ∀ r ∈ recs, r.action = "SELL" := by
  induction alloc generalizing recs with
  | nil =>
      simp only [sellLoop, Except.ok.injEq] at h
      subst h
      intro r hr
      simp at hr
  | cons p rest ih =>
      obtain ⟨cat, tp⟩ := p
      simp only [sellLoop] at h
      cases hf : sellFor portfolio bd ta sd ma cat tp with
      | error e => rw [hf] at h; cases h
      | ok here =>
          rw [hf] at h
          cases hl : sellLoop portfolio bd ta sd ma rest with
          | error e =>
              rw [hl] at h
              cases h
          | ok later =>
              rw [hl] at h
              dsimp only [] at h
              injection h with h
              subst h
              intro r hr
              rcases List.mem_append.mp hr with hr | hr
              · exact sellFor_actions hf r hr
              · exact ih hl r hr

theorem buyStep_action {sd : List (String × Quote)} {ma : MarketAnalysis}
    {tca : ℚ} {n i : ℕ} {cat : String} {tp : ℚ} {rem rem' : ℚ} {r : Rec}
    (h : buyStep sd ma tca n i cat tp rem = (some r, rem')) :
    r.action = "BUY" := by
  unfold buyStep at h
  cases he : etf_map cat with
  | none =>
      rw [he] at h
      dsimp only [] at h
      exact absurd h (by simp)
  | some symbol =>
      rw [he] at h
      dsimp only [] at h
      cases hq : pyLookup sd symbol with
      | none =>
          rw [hq] at h
          dsimp only [] at h
          exact absurd h (by simp)
      | some data =>
          rw [hq] at h
          dsimp only [] at h
          by_cases hpos : (0 : ℤ) < (if i = n - 1 then pyInt (rem / data.price)
              else pyInt (tca * (tp / 100) / data.price))
          · rw [if_pos hpos] at h
            simp only [Prod.mk.injEq, Option.some.injEq] at h
            obtain ⟨h1, -⟩ := h
            subst h1
            rfl
          · rw [if_neg hpos] at h
            simp only [Prod.mk.injEq] at h
            exact absurd h.1 (by simp)

theorem buyLoop_actions {sd : List (String × Quote)} {ma : MarketAnalysis}
    {tca : ℚ} {n : ℕ} {alloc : List (String × ℚ)} :
    ∀ {i : ℕ} {rem : ℚ}, ∀ r ∈ buyLoop sd ma tca n i rem alloc, r.action = "BUY" := by
  induction alloc with
  | nil =>
      intro i rem r hr
      simp [buyLoop] at hr
  | cons p rest ih =>
      intro i rem r hr
      obtain ⟨cat, tp⟩ := p
      simp only [buyLoop] at hr
      cases hs : buyStep sd ma tca n i cat tp rem with
      | mk first rem' =>
          cases first with
          | none =>
              rw [hs] at hr
              exact ih r hr
          | some r0 =>
              rw [hs] at hr
              rcases List.mem_cons.mp hr with rfl | hr
              · exact buyStep_action hs
              · exact ih r hr

/-! ## C4: final ordering of the engine output -/

/-- C4: every successful run of the algorithmic engine returns a list that is
descending in cost, and among equal-cost items a BUY never precedes a SELL
(sells are emitted first and the sort is stable). -/
theorem generate_algorithmic_recommendations_sorted
    (portfolio : List (String × ℤ)) (current_breakdown : List (String × ℚ))
    (target_allocation : List (String × ℚ)) (total_value cash_available : ℚ)
    (stock_data : List (String × Quote)) (market_analysis : MarketAnalysis)
    (out : List Rec)
    (h : generate_algorithmic_recommendations portfolio current_breakdown
      target_allocation total_value cash_available stock_data market_analysis =
        .ok out) :
    out.Pairwise (fun a b => b.cost ≤ a.cost ∧
      (a.cost = b.cost → ¬ (a.action = "BUY" ∧ b.action = "SELL"))) := by
  unfold generate_algorithmic_recommendations at h
  cases ha : adjustAllocation target_allocation market_analysis.recommendation with
  | error e => rw [ha] at h; cases h
  | ok adjusted =>
      rw [ha] at h
      dsimp only [] at h
      cases hs : sellLoop portfolio current_breakdown
          (total_value + cash_available) stock_data market_analysis adjusted with
      | error e => rw [hs] at h; cases h
      | ok sells =>
          rw [hs] at h
          dsimp only [] at h
          injection h with h
          subst h
          have hsell := sellLoop_actions hs
          have hbuy : ∀ r ∈ buyLoop stock_data market_analysis
              (cash_available + (sells.map (fun r => r.cost)).sum) adjusted.length 0
              (cash_available + (sells.map (fun r => r.cost)).sum) adjusted,
              r.action = "BUY" := fun r hr => buyLoop_actions r hr
          have h1 := sorted_sortDescCost (sells ++ buyLoop stock_data market_analysis
            (cash_available + (sells.map (fun r => r.cost)).sum) adjusted.length 0
            (cash_available + (sells.map (fun r => r.cost)).sum) adjusted)
          have h2 : (sells ++ buyLoop stock_data market_analysis
              (cash_available + (sells.map (fun r => r.cost)).sum) adjusted.length 0
              (cash_available + (sells.map (fun r => r.cost)).sum) adjusted).Pairwise
                costTieOrd := by
            rw [List.pairwise_append]
            refine ⟨?_, ?_, ?_⟩
            · exact List.pairwise_of_forall_mem_list (fun a hb b hb2 => by
                intro hc hcon
                have := hsell a hb
                rw [this] at hcon
                exact absurd hcon.1 (by decide))
            · exact List.pairwise_of_forall_mem_list (fun a hb b hb2 => by
                intro hc hcon
                have := hbuy b hb2
                rw [this] at hcon
                exact absurd hcon.2 (by decide))
            · intro a hb b hb2
              intro hc hcon
              have := hsell a hb
              rw [this] at hcon
              exact absurd hcon.1 (by decide)
          have h3 := tie_sortDescCost _ h2
          exact List.Pairwise.imp (fun hab => ⟨hab.1, hab.2⟩) (h1.and h3)

/-! ## A concrete engine run shared by the engine claims -/

/-- Example quote: expensive ETF, flat change, no dividend, unknown P/E. -/
def exQuote : Quote := { price := 1000, change := 0, dividend_yield := 0, pe_ratio := none }

/-- Example session portfolio: five shares of VTI. -/
def exPortfolio : List (String × ℤ) := [("VTI", 5)]

/-- Example category breakdown: 20 dollars of US stocks. -/
def exBreakdown : List (String × ℚ) := [("Stocks (US)", 20)]

/-- Example target allocation: 10 percent US stocks. -/
def exTarget : List (String × ℚ) := [("Stocks (US)", 10)]

/-- Example quote map. -/
def exStockData : List (String × Quote) := [("VTI", exQuote)]

/-- Example market analysis: balanced, medium risk, no sector data. -/
def exMA : MarketAnalysis :=
  { market_sentiment := "neutral"
    key_insights := []
    sector_analysis := []
    risk_assessment := "medium"
    recommendation := "balanced" }

/-- The SELL the engine emits on the example: the overweight formula floors to
zero shares, but the `max(1, ...)` floor lifts it to one share. -/
def exSellRec : Rec :=
  { symbol := "VTI"
    shares := 1
    cost := 1000
    action := "SELL"
    category := "Stocks (US)"
    current_pct := 20
    target_pct := 10
    ai_score := 50
    market_sentiment := "neutral"
    detailed_reasons := ["Moderate price action - portfolio rebalancing",
      "Moderate risk - tactical position adjustment"] }

/-- The BUY the engine emits on the example (last category absorbs the cash
pool of 1000, one share at 1000). -/
def exBuyRec : Rec :=
  { symbol := "VTI"
    shares := 1
    cost := 1000
    action := "BUY"
    category := "Stocks (US)"
    target_pct := 10
    ai_score := 50
    market_sentiment := "neutral"
    detailed_reasons := ["Stable price action - steady performance",
      "Growth-focused low dividend - capital appreciation",
      "Balanced market approach - diversified allocation",
      "Moderate risk environment - standard allocation"] }

/-- Evaluation of the engine on the shared example inputs. -/
theorem engineExample_eval :
    generate_algorithmic_recommendations exPortfolio exBreakdown exTarget 100 0
      exStockData exMA = .ok [exSellRec, exBuyRec] := by
  have hadj : adjustAllocation exTarget "balanced" = .ok exTarget := by
    simp [adjustAllocation]
  have hsf : sellFor exPortfolio exBreakdown (100 + 0) exStockData exMA
      "Stocks (US)" 10 = .ok [exSellRec] := by
    unfold sellFor
    simp only [etf_map, exPortfolio, exBreakdown, exStockData, pyLookup]
    norm_num
    simp [exSellRec, exQuote, pyInt, calculate_ai_score, exStockData, pyLookup,
      reasonsFor, categorySector, categorySentiment, exMA, peOver30]
    try norm_num
  have hsl : sellLoop exPortfolio exBreakdown (100 + 0) exStockData exMA exTarget =
      .ok [exSellRec] := by
    simp only [exTarget, sellLoop, hsf]
    rfl
  have hbl : ∀ tca : ℚ, tca = 1000 → buyLoop exStockData exMA tca 1 0 tca exTarget =
      [exBuyRec] := by
    intro tca htca
    subst htca
    simp only [exTarget, buyLoop, buyStep, etf_map, exStockData, pyLookup]
    norm_num [exQuote, pyInt]
    simp [exBuyRec, categorySentiment, categorySector, exMA, pyLookup,
      calculate_ai_score, exStockData, reasonsFor, exQuote]
    try norm_num [exQuote]
  unfold generate_algorithmic_recommendations
  rw [show exMA.recommendation = "balanced" from rfl, hadj]
  dsimp only []
  rw [hsl]
  dsimp only []
  rw [show ((0 : ℚ) + (List.map (fun r => r.cost) [exSellRec]).sum) = 1000 by
    simp [exSellRec]]
  rw [show exTarget.length = 1 from rfl]
  rw [hbl 1000 rfl]
  simp only [List.cons_append, List.nil_append, sortDescCost, insertDescCost]
  rw [if_pos (by norm_num [exSellRec, exBuyRec] : exBuyRec.cost ≤ exSellRec.cost)]

/-! ## C4 witness -/

/-- C4 witness: the ordering property on the concrete engine run. -/
theorem generate_algorithmic_recommendations_sorted_witness :
    ([exSellRec, exBuyRec] : List Rec).Pairwise (fun a b => b.cost ≤ a.cost ∧
      (a.cost = b.cost → ¬ (a.action = "BUY" ∧ b.action = "SELL"))) :=
  generate_algorithmic_recommendations_sorted exPortfolio exBreakdown exTarget
    100 0 exStockData exMA [exSellRec, exBuyRec] engineExample_eval

/-! ## C5: sell quantity -/

/-- C5 counterexample: on the example run the overweight trigger fires
(20 > 10 + 3) and the claimed quantity `floor((current_pct - target_pct)/100 ×
total_available / price)` is 0, yet the engine emits a SELL of 1 share — the
`min(.., current)` cap and the unconditional `max(1, ..)` floor apply to the
overweight branch too. -/
theorem sellFor_overweight_not_bare_floor :
    generate_algorithmic_recommendations exPortfolio exBreakdown exTarget 100 0
        exStockData exMA = .ok [exSellRec, exBuyRec] ∧
      ((20 : ℚ) > 10 + 3) ∧
      (⌊((20 : ℚ) - 10) / 100 * 100 / 1000⌋ = 0) ∧
      exSellRec.shares = 1 ∧ (1 : ℤ) ≠ 0 := by
  refine ⟨engineExample_eval, by norm_num, by norm_num, rfl, by decide⟩

/-- C5 (amended): in the engine's sell step, when the guards pass (configured
symbol, held with positive shares, quoted), the sold quantity is
`max(1, min(floor(branch), current_shares))` where `branch` is the overweight
formula when the overweight trigger fires (taking precedence) and the
15 or 20 percent fraction of the holding otherwise — the cap at the holding
and the minimum of one share apply to both branches. -/
theorem sellFor_shares_clamped
    (portfolio : List (String × ℤ)) (bd : List (String × ℚ)) (ta : ℚ)
    (sd : List (String × Quote)) (ma : MarketAnalysis) (cat : String) (tp : ℚ)
    (symbol : String) (cur : ℤ) (data : Quote)
    (he : etf_map cat = some symbol)
    (hp : pyLookup portfolio symbol = some cur)
    (hc : 0 < cur)
    (hq : pyLookup sd symbol = some data)
    (hta : 0 < ta) (hprice : 0 < data.price) :
    (((pyLookup bd cat).getD 0 / ta) * 100 > tp + 3 →
      ∃ r, sellFor portfolio bd ta sd ma cat tp = .ok [r] ∧ r.action = "SELL" ∧
        r.symbol = symbol ∧
        r.shares = max 1 (min ⌊(((pyLookup bd cat).getD 0 / ta) * 100 - tp) / 100 *
          ta / data.price⌋ cur) ∧
        r.cost = (r.shares : ℚ) * data.price) ∧
    (¬ ((pyLookup bd cat).getD 0 / ta) * 100 > tp + 3 →
      (data.change < -3 ∨ peOver30 data.pe_ratio ∨
        (categorySentiment cat ma = "weak" ∧ ((pyLookup bd cat).getD 0 / ta) * 100 > 5) ∨
        (ma.risk_assessment = "high" ∧ ((pyLookup bd cat).getD 0 / ta) * 100 > 15)) →
      ∃ r, sellFor portfolio bd ta sd ma cat tp = .ok [r] ∧ r.action = "SELL" ∧
        r.symbol = symbol ∧
        r.shares = max 1 (min ⌊(cur : ℚ) *
          (if ma.risk_assessment = "high" then 1/5 else 3/20)⌋ cur) ∧
        r.cost = (r.shares : ℚ) * data.price) := by
  have hshare_pos : ∀ z : ℤ, (0 : ℤ) < max 1 z := fun z =>
    lt_of_lt_of_le zero_lt_one (le_max_left 1 z)
  constructor
  · intro hov
    have harg : (0 : ℚ) ≤ (((pyLookup bd cat).getD 0 / ta) * 100 - tp) / 100 * ta / data.price := by
      have h3 : (0 : ℚ) < ((pyLookup bd cat).getD 0 / ta) * 100 - tp := by linarith
      positivity
    apply Exists.intro
    refine ⟨?_, ?_, ?_, ?_, ?_⟩
    · unfold sellFor
      rw [he]
      dsimp only []
      rw [hp]
      dsimp only []
      rw [if_pos hc, hq]
      dsimp only []
      rw [if_pos (Or.inl hov), if_pos hov,
        if_pos (hshare_pos _)]
    · rfl
    · rfl
    · show max 1 (min (pyInt _) cur) = max 1 (min ⌊_⌋ cur)
      rw [pyInt, if_pos harg]
    · rfl
  · intro hnov htrig
    have harg : (0 : ℚ) ≤ (cur : ℚ) *
        (if ma.risk_assessment = "high" then 1/5 else 3/20) := by
      have : (0 : ℚ) ≤ (cur : ℚ) := by exact_mod_cast le_of_lt hc
      split <;> positivity
    have htrig' : ((pyLookup bd cat).getD 0 / ta) * 100 > tp + 3 ∨ data.change < -3 ∨
        peOver30 data.pe_ratio ∨
        (categorySentiment cat ma = "weak" ∧ ((pyLookup bd cat).getD 0 / ta) * 100 > 5) ∨
        (ma.risk_assessment = "high" ∧ ((pyLookup bd cat).getD 0 / ta) * 100 > 15) :=
      Or.inr htrig
    apply Exists.intro
    refine ⟨?_, ?_, ?_, ?_, ?_⟩
    · unfold sellFor
      rw [he]
      dsimp only []
      rw [hp]
      dsimp only []
      rw [if_pos hc, hq]
      dsimp only []
      rw [if_pos htrig', if_neg hnov, if_pos (hshare_pos _)]
    · rfl
    · rfl
    · show max 1 (min (pyInt _) cur) = max 1 (min ⌊_⌋ cur)
      rw [pyInt, if_pos harg]
    · rfl

/-- C5 witness: the amended formula on the example run — the engine sells
`max(1, min(floor(0.01), 5)) = 1` share. -/
theorem sellFor_shares_clamped_witness :
    ∃ r, sellFor exPortfolio exBreakdown (100 + 0) exStockData exMA
        "Stocks (US)" 10 = .ok [r] ∧ r.action = "SELL" ∧ r.symbol = "VTI" ∧
      r.shares = max 1 (min ⌊(((pyLookup exBreakdown "Stocks (US)").getD 0 / (100 + 0)) *
        100 - 10) / 100 * (100 + 0) / exQuote.price⌋ 5) ∧
      r.cost = (r.shares : ℚ) * exQuote.price :=
  (sellFor_shares_clamped exPortfolio exBreakdown (100 + 0) exStockData exMA
      "Stocks (US)" 10 "VTI" 5 exQuote rfl rfl (by decide) rfl (by norm_num)
      (by norm_num [exQuote])).1
    (by norm_num [exBreakdown, pyLookup])

/-! ## C6: missing quote handling -/

/-- C6 counterexample: with VTI held (five shares) but absent from the quote
map, the engine does not skip the symbol on the sell path — the unguarded
`stock_data[symbol]` lookup raises KeyError, modelled as `Except.error`. -/
theorem engine_keyerror_on_held_symbol_missing_quote :
    generate_algorithmic_recommendations exPortfolio [] exTarget 100 0 [] exMA =
      .error ("KeyError: " ++ "VTI") := rfl

/-- C6 (amended): on the buy path a category whose symbol is unconfigured or
unquoted is skipped entirely (no recommendation, cash untouched); but on the
sell path a held symbol with positive shares that is missing from the quote map
makes the engine raise KeyError rather than skip. -/
theorem engine_missing_quote_behaviour :
    (∀ (sd : List (String × Quote)) (ma : MarketAnalysis) (tca : ℚ) (n i : ℕ)
      (cat : String) (tp rem : ℚ),
      (∀ symbol, etf_map cat = some symbol → pyLookup sd symbol = none) →
      buyStep sd ma tca n i cat tp rem = (none, rem)) ∧
    (∀ (portfolio : List (String × ℤ)) (bd : List (String × ℚ)) (ta : ℚ)
      (sd : List (String × Quote)) (ma : MarketAnalysis) (cat : String) (tp : ℚ)
      (symbol : String) (cur : ℤ),
      etf_map cat = some symbol → pyLookup portfolio symbol = some cur → 0 < cur →
      pyLookup sd symbol = none →
      sellFor portfolio bd ta sd ma cat tp = .error ("KeyError: " ++ symbol)) := by
  constructor
  · intro sd ma tca n i cat tp rem hmiss
    unfold buyStep
    cases he : etf_map cat with
    | none => rfl
    | some symbol =>
        dsimp only []
        rw [hmiss symbol he]
  · intro portfolio bd ta sd ma cat tp symbol cur he hp hc hmiss
    unfold sellFor
    rw [he]
    dsimp only []
    rw [hp]
    dsimp only []
    rw [if_pos hc, hmiss]

/-- C6 witness: both amended behaviours at concrete inputs — the buy path skips
the unquoted category, the sell path errors on it. -/
theorem engine_missing_quote_behaviour_witness :
    buyStep [] exMA 100 1 0 "Stocks (US)" 10 100 = (none, 100) ∧
      sellFor exPortfolio [] 100 [] exMA "Stocks (US)" 10 =
        .error ("KeyError: " ++ "VTI") :=
  ⟨engine_missing_quote_behaviour.1 [] exMA 100 1 0 "Stocks (US)" 10 100
      (fun s hs => by cases hs; rfl),
   engine_missing_quote_behaviour.2 exPortfolio [] 100 [] exMA "Stocks (US)" 10
      "VTI" 5 rfl rfl (by decide) rfl⟩

/-! ## C10: diversified fallback -/

theorem pyLookup_mem {l : List (String × α)} {key : String} {v : α}
    (h : pyLookup l key = some v) : (key, v) ∈ l := by
  induction l with
  | nil => cases h
  | cons p rest ih =>
      rw [pyLookup] at h
      by_cases hk : p.1 = key
      · rw [if_pos hk] at h
        injection h with h
        have hpv : p = (key, v) := by rw [← hk, ← h]
        rw [← hpv]
        exact List.mem_cons_self p rest
      · rw [if_neg hk] at h
        exact List.mem_cons_of_mem p (ih h)

/-- Invariant of the best-performer scan accumulator: either the untouched
`(None, -999)` sentinel or a present symbol with its change. -/
def scanAcc (sd : List (String × Quote)) : Option String × ℚ → Prop
  | (none, bp) => bp = -999
  | (some s, bp) => ∃ q, pyLookup sd s = some q ∧ bp = q.change

/-- Full characterization of the best-performer scan: the accumulator value
never decreases, bounds every present candidate processed, and either the scan
returns the accumulator untouched or it picks a present candidate that strictly
beats the start value and every present candidate before it. -/
theorem bestScan_spec (sd : List (String × Quote)) :
    ∀ (syms : List String) (bs : Option String) (bp : ℚ),
    scanAcc sd (bs, bp) →
    scanAcc sd (bestScan sd syms (bs, bp)) ∧
    bp ≤ (bestScan sd syms (bs, bp)).2 ∧
    (∀ t ∈ syms, ∀ q2, pyLookup sd t = some q2 →
      q2.change ≤ (bestScan sd syms (bs, bp)).2) ∧
    (bestScan sd syms (bs, bp) = (bs, bp) ∨
      ∃ pre t post, syms = pre ++ t :: post ∧
        (bestScan sd syms (bs, bp)).1 = some t ∧
        bp < (bestScan sd syms (bs, bp)).2 ∧
        (∀ u ∈ pre, ∀ q2, pyLookup sd u = some q2 →
          q2.change < (bestScan sd syms (bs, bp)).2)) := by
  intro syms
  induction syms with
  | nil =>
      intro bs bp hacc
      exact ⟨hacc, le_refl _, by simp, Or.inl rfl⟩
  | cons x rest ih =>
      intro bs bp hacc
      cases hx : pyLookup sd x with
      | none =>
          have hred : bestScan sd (x :: rest) (bs, bp) = bestScan sd rest (bs, bp) := by
            simp only [bestScan, hx]
          obtain ⟨h1, h2, h3, h4⟩ := ih bs bp hacc
          rw [hred]
          refine ⟨h1, h2, ?_, ?_⟩
          · intro t ht q2 hq2
            rcases List.mem_cons.mp ht with rfl | ht
            · rw [hx] at hq2; cases hq2
            · exact h3 t ht q2 hq2
          · rcases h4 with h4 | ⟨pre, t, post, hsplit, hfst, hlt, hpre⟩
            · exact Or.inl h4
            · refine Or.inr ⟨x :: pre, t, post, by rw [hsplit, List.cons_append], hfst, hlt, ?_⟩
              intro u hu q2 hq2
              rcases List.mem_cons.mp hu with rfl | hu
              · rw [hx] at hq2; cases hq2
              · exact hpre u hu q2 hq2
      | some qx =>
          by_cases hgt : qx.change > bp
          · have hred : bestScan sd (x :: rest) (bs, bp) =
                bestScan sd rest (some x, qx.change) := by
              simp only [bestScan, hx, if_pos hgt]
            obtain ⟨h1, h2, h3, h4⟩ := ih (some x) qx.change ⟨qx, hx, rfl⟩
            rw [hred]
            refine ⟨h1, le_trans (le_of_lt hgt) h2, ?_, ?_⟩
            · intro t ht q2 hq2
              rcases List.mem_cons.mp ht with rfl | ht
              · rw [hx] at hq2
                injection hq2 with hq2
                subst hq2
                exact h2
              · exact h3 t ht q2 hq2
            · rcases h4 with h4 | ⟨pre, t, post, hsplit, hfst, hlt, hpre⟩
              · refine Or.inr ⟨[], x, rest, rfl, ?_, ?_, ?_⟩
                · rw [h4]
                · rw [h4]; exact hgt
                · intro u hu; simp at hu
              · refine Or.inr ⟨x :: pre, t, post, by rw [hsplit, List.cons_append], hfst,
                  lt_trans hgt hlt, ?_⟩
                intro u hu q2 hq2
                rcases List.mem_cons.mp hu with rfl | hu
                · rw [hx] at hq2
                  injection hq2 with hq2
                  subst hq2
                  exact hlt
                · exact hpre u hu q2 hq2
          · have hred : bestScan sd (x :: rest) (bs, bp) = bestScan sd rest (bs, bp) := by
              simp only [bestScan, hx, if_neg hgt]
            obtain ⟨h1, h2, h3, h4⟩ := ih bs bp hacc
            rw [hred]
            refine ⟨h1, h2, ?_, ?_⟩
            · intro t ht q2 hq2
              rcases List.mem_cons.mp ht with rfl | ht
              · rw [hx] at hq2
                injection hq2 with hq2
                subst hq2
                exact le_trans (not_lt.mp hgt) h2
              · exact h3 t ht q2 hq2
            · rcases h4 with h4 | ⟨pre, t, post, hsplit, hfst, hlt, hpre⟩
              · exact Or.inl h4
              · refine Or.inr ⟨x :: pre, t, post, by rw [hsplit, List.cons_append], hfst, hlt, ?_⟩
                intro u hu q2 hq2
                rcases List.mem_cons.mp hu with rfl | hu
                · rw [hx] at hq2
                  injection hq2 with hq2
                  subst hq2
                  exact lt_of_le_of_lt (not_lt.mp hgt) hlt
                · exact hpre u hu q2 hq2

/-- The chosen symbol is the first candidate of its category achieving the
maximum change among the candidates present in the quote map. -/
def argmaxProp (sd : List (String × Quote)) (cat symbol : String) (q : Quote) : Prop :=
  ∃ pre post, (pyLookup DIVERSIFIED_ETF_MAP cat).getD [] = pre ++ symbol :: post ∧
    (∀ u ∈ pre, ∀ q2, pyLookup sd u = some q2 → q2.change < q.change) ∧
    (∀ u ∈ (pyLookup DIVERSIFIED_ETF_MAP cat).getD [], ∀ q2,
      pyLookup sd u = some q2 → q2.change ≤ q.change)

/-- One diversified-fallback step: either nothing is emitted and the remaining
cash is untouched, or one BUY of at least one share of the first-argmax
candidate is emitted, costing `shares × price ≤ remaining` (given sane
percentages, positive prices, and all changes above the sentinel). -/
theorem divStep_spec (sd : List (String × Quote))
    (hsent : ∀ p ∈ sd, -999 < p.2.change) (hpr : ∀ p ∈ sd, 0 < p.2.price)
    (cat : String) (tp rem : ℚ) (hrem : 0 ≤ rem) (htp0 : 0 ≤ tp) (htp1 : tp ≤ 100) :
    divStep sd cat tp rem = (none, rem) ∨
    ∃ r, divStep sd cat tp rem = (some r, rem - r.cost) ∧
      r.action = "BUY" ∧ r.category = cat ∧ 1 ≤ r.shares ∧ 0 ≤ r.cost ∧ r.cost ≤ rem ∧
      ∃ q, pyLookup sd r.symbol = some q ∧ r.cost = (r.shares : ℚ) * q.price ∧
        argmaxProp sd cat r.symbol q := by
  obtain ⟨hacc, hmono, hbound, hpick⟩ := bestScan_spec sd
    ((pyLookup DIVERSIFIED_ETF_MAP cat).getD []) none (-999) rfl
  simp only [divStep]
  generalize hscan : bestScan sd ((pyLookup DIVERSIFIED_ETF_MAP cat).getD []) (none, -999) = res
  rw [hscan] at hacc hmono hbound hpick
  obtain ⟨bs0, bp0⟩ := res
  cases bs0 with
      | none =>
          dsimp only []
          cases hh : ((pyLookup DIVERSIFIED_ETF_MAP cat).getD [] : List String).head? with
          | none => exact Or.inl rfl
          | some h0 =>
              dsimp only []
              cases hq0 : pyLookup sd h0 with
              | none => exact Or.inl rfl
              | some q0 =>
                  have hb : bp0 = -999 := by
                    rcases hpick with hp | ⟨pre, t, post, -, hfst, -, -⟩
                    · exact (Prod.mk.injEq .. ▸ hp).2
                    · cases hfst
                  have hle : q0.change ≤ bp0 :=
                    hbound h0 (List.mem_of_mem_head? hh) q0 hq0
                  have hgt : -999 < q0.change := hsent _ (pyLookup_mem hq0)
                  rw [hb] at hle
                  exact absurd hle (not_le.mpr hgt)
      | some s =>
          dsimp only []
          cases hq : pyLookup sd s with
          | none => exact Or.inl rfl
          | some q =>
              have hqprice : 0 < q.price := hpr _ (pyLookup_mem hq)
              have hcash : (0 : ℚ) ≤ rem * (tp / 100) := by positivity
              have harg : (0 : ℚ) ≤ rem * (tp / 100) / q.price := by positivity
              by_cases hsh : (0 : ℤ) < pyInt (rem * (tp / 100) / q.price)
              · refine Or.inr ?_
                apply Exists.intro
                refine ⟨?_, ?_, ?_, ?_, ?_, ?_, ?_⟩
                · dsimp only []
                  rw [if_pos hsh]
                · rfl
                · rfl
                · show (1 : ℤ) ≤ pyInt (rem * (tp / 100) / q.price)
                  omega
                · show (0 : ℚ) ≤ ((pyInt (rem * (tp / 100) / q.price) : ℤ) : ℚ) * q.price
                  exact mul_nonneg (by exact_mod_cast le_of_lt hsh) (le_of_lt hqprice)
                · show ((pyInt (rem * (tp / 100) / q.price) : ℤ) : ℚ) * q.price ≤ rem
                  have hfl : pyInt (rem * (tp / 100) / q.price) =
                      ⌊rem * (tp / 100) / q.price⌋ := by
                    rw [pyInt, if_pos harg]
                  have h1 : ((pyInt (rem * (tp / 100) / q.price) : ℤ) : ℚ) * q.price ≤
                      rem * (tp / 100) := by
                    rw [hfl]
                    calc (⌊rem * (tp / 100) / q.price⌋ : ℚ) * q.price
                        ≤ (rem * (tp / 100) / q.price) * q.price :=
                          mul_le_mul_of_nonneg_right (Int.floor_le _) (le_of_lt hqprice)
                      _ = rem * (tp / 100) := div_mul_cancel₀ _ (ne_of_gt hqprice)
                  have h2 : rem * (tp / 100) ≤ rem := by
                    calc rem * (tp / 100) ≤ rem * 1 :=
                          mul_le_mul_of_nonneg_left (by linarith) hrem
                      _ = rem := mul_one rem
                  exact le_trans h1 h2
                · refine ⟨q, hq, rfl, ?_⟩
                  obtain ⟨qs, hqs, hbp⟩ := hacc
                  rw [hq] at hqs
                  injection hqs with hqs
                  subst hqs
                  rcases hpick with hp | ⟨pre, t, post, hsplit, hfst, -, hpre⟩
                  · exact absurd (congrArg Prod.fst hp) (by simp)
                  · have hts : t = s := by
                      injection hfst with hfst
                      exact hfst.symm
                    subst hts
                    refine ⟨pre, post, hsplit, ?_, ?_⟩
                    · intro u hu q2 hq2
                      have := hpre u hu q2 hq2
                      rwa [← hbp]
                    · intro u hu q2 hq2
                      have := hbound u hu q2 hq2
                      rwa [← hbp]
              · dsimp only []
                rw [if_neg hsh]
                exact Or.inl rfl

/-- Loop form of the diversified-fallback guarantees. -/
theorem divLoop_spec (sd : List (String × Quote))
    (hsent : ∀ p ∈ sd, -999 < p.2.change) (hpr : ∀ p ∈ sd, 0 < p.2.price) :
    ∀ (alloc : List (String × ℚ)) (rem : ℚ), 0 ≤ rem →
    (∀ p ∈ alloc, 0 ≤ p.2 ∧ p.2 ≤ 100) →
    (∀ r ∈ divLoop sd rem alloc,
      r.action = "BUY" ∧ 1 ≤ r.shares ∧
      ∃ q, pyLookup sd r.symbol = some q ∧ r.cost = (r.shares : ℚ) * q.price ∧
        argmaxProp sd r.category r.symbol q) ∧
    ((divLoop sd rem alloc).map (fun r => r.cost)).sum ≤ rem := by
  intro alloc
  induction alloc with
  | nil =>
      intro rem hrem _
      constructor
      · intro r hr; simp [divLoop] at hr
      · simp [divLoop]; exact hrem
  | cons p rest ih =>
      intro rem hrem hpct
      obtain ⟨cat, tp⟩ := p
      have hstep := divStep_spec sd hsent hpr cat tp rem hrem
        (hpct (cat, tp) (List.mem_cons_self _ _)).1
        (hpct (cat, tp) (List.mem_cons_self _ _)).2
      rcases hstep with hnone | ⟨r, hsome, hact, hcat, hsh, hc0, hcr, q, hq, hcost, hmax⟩
      · have hred : divLoop sd rem ((cat, tp) :: rest) = divLoop sd rem rest := by
          simp only [divLoop, hnone]
        rw [hred]
        exact ih rem hrem (fun x hx => hpct x (List.mem_cons_of_mem _ hx))
      · have hred : divLoop sd rem ((cat, tp) :: rest) =
            r :: divLoop sd (rem - r.cost) rest := by
          simp only [divLoop, hsome]
        rw [hred]
        have hrem' : (0 : ℚ) ≤ rem - r.cost := by linarith
        obtain ⟨ihP, ihS⟩ := ih (rem - r.cost)
          hrem' (fun x hx => hpct x (List.mem_cons_of_mem _ hx))
        constructor
        · intro r2 hr2
          rcases List.mem_cons.mp hr2 with rfl | hr2
          · exact ⟨hact, hsh, q, hq, hcost, hcat ▸ hmax⟩
          · exact ihP r2 hr2
        · simp only [List.map_cons, List.sum_cons]
          linarith

/-- C10 (amended): under non-negative cash, target percentages within
[0, 100], positive quoted prices, and all quoted changes above the -999
sentinel, the diversified fallback emits only BUY items of at least one share,
each costing `shares × price` of the first candidate achieving the maximum
change among the category's candidates present in the quote map, and the total
cost never exceeds the available cash.  (Without the percentage bound the total
can exceed the cash — `generate_diversified_cost_exceeds_cash` — and without
the sentinel bound a candidate with change below -999 can beat the scan.) -/
theorem generate_diversified_recommendations_props
    (cash_available : ℚ) (target_allocation : List (String × ℚ))
    (stock_data : List (String × Quote))
    (hc : 0 ≤ cash_available)
    (hp : ∀ p ∈ target_allocation, 0 ≤ p.2 ∧ p.2 ≤ 100)
    (hpr : ∀ p ∈ stock_data, 0 < p.2.price)
    (hs : ∀ p ∈ stock_data, -999 < p.2.change) :
    (∀ r ∈ generate_diversified_recommendations cash_available target_allocation
        stock_data,
      r.action = "BUY" ∧ 1 ≤ r.shares ∧
      ∃ q, pyLookup stock_data r.symbol = some q ∧ r.cost = (r.shares : ℚ) * q.price ∧
        argmaxProp stock_data r.category r.symbol q) ∧
    ((generate_diversified_recommendations cash_available target_allocation
      stock_data).map (fun r => r.cost)).sum ≤ cash_available :=
  divLoop_spec stock_data hs hpr target_allocation cash_available hc hp

/-- Quote map for the C10 theorems. -/
def c10SD : List (String × Quote) :=
  [("VTI", { price := 1, change := 0, dividend_yield := 0, pe_ratio := none })]

/-- C10 counterexample: with a (policy-corrupt) target percentage of 200 the
fallback spends 200 from a cash balance of 100 — the claimed bound
`Σ cost ≤ cash_available` fails, and the running remaining-cash value goes
negative. -/
theorem generate_diversified_cost_exceeds_cash :
    ((generate_diversified_recommendations 100 [("Stocks (US)", 200)] c10SD).map
      (fun r => r.cost)).sum = 200 ∧ ¬ ((200 : ℚ) ≤ 100) := by
  constructor
  · show ((divLoop c10SD 100 [("Stocks (US)", 200)]).map (fun r => r.cost)).sum = 200
    have hstep : divStep c10SD "Stocks (US)" 200 100 =
        (some ({ symbol := "VTI"
                 shares := 200
                 cost := 200
                 action := "BUY"
                 category := "Stocks (US)"
                 priority := "Medium"
                 ai_generated := false } : Rec), (-100 : ℚ)) := by
      unfold divStep
      simp [DIVERSIFIED_ETF_MAP, pyLookup, c10SD, bestScan]
      norm_num [pyInt]
    simp only [divLoop, hstep]
    simp [divLoop]
  · norm_num

/-- C10 witness: the amended guarantees on a concrete run — cash 100, a
60 percent US-stock target, one quoted candidate. -/
theorem generate_diversified_recommendations_props_witness :
    (∀ r ∈ generate_diversified_recommendations 100 [("Stocks (US)", 60)] c10SD,
      r.action = "BUY" ∧ 1 ≤ r.shares ∧
      ∃ q, pyLookup c10SD r.symbol = some q ∧ r.cost = (r.shares : ℚ) * q.price ∧
        argmaxProp c10SD r.category r.symbol q) ∧
    ((generate_diversified_recommendations 100 [("Stocks (US)", 60)] c10SD).map
      (fun r => r.cost)).sum ≤ 100 :=
  generate_diversified_recommendations_props 100 [("Stocks (US)", 60)] c10SD
    (by norm_num)
    (by intro p hp; simp at hp; subst hp; norm_num)
    (by intro p hp; simp [c10SD] at hp; subst hp; norm_num)
    (by intro p hp; simp [c10SD] at hp; subst hp; norm_num)

end PSChallenge
